import Mathlib

/-!
Shallow embedding of the time-gated terminal animation and lap-timer
subsystem of `futils.h` (structs `FUTILS::Spinner`, `FUTILS::Dotter`,
`FUTILS::Timer`).

Modelling choices:
* `struct timespec` becomes `Timespec` with integer seconds and nanoseconds.
* `double` arithmetic on elapsed times and periods is modelled over `ℚ`
  (the expressions involved are exact decimal/ratio computations).
* Each C++ member function that reads the monotonic clock takes the
  sampled `Timespec` as an explicit argument and returns the updated
  object state together with its return value / emitted bytes.
* Emitted terminal output is the list of bytes passed to `putchar`,
  in order; `fflush` has no effect on the byte sequence and is not
  modelled.
* `std::string::operator[]` is modelled by `List.getD` with the null
  character as default (a read at index `size()` yields the null
  terminator in C++11).
-/

namespace FUTILS

/-- A monotonic clock sample as produced by `clock_gettime(CLOCK_MONOTONIC, ·)`. -/
structure Timespec where
  tv_sec : Int
  tv_nsec : Int
deriving DecidableEq

/-- The elapsed-seconds computation
`(now.tv_sec - last.tv_sec) + (now.tv_nsec - last.tv_nsec) / 1E9`
shared by `Spinner::operator()`, `Dotter::operator()`, `Timer::Elapsed`,
`Timer::Lap` and `Timer::GetCurrentLapTime`. -/
def elapsedSecs (last now : Timespec) : ℚ :=
  ((now.tv_sec - last.tv_sec : Int) : ℚ) + ((now.tv_nsec - last.tv_nsec : Int) : ℚ) / 1000000000

/-- The firing tolerance `1E-3` appearing in `period - timeElapsed < 1E-3`. -/
def fireTolerance : ℚ := 1 / 1000

/-- The null character, the value of `std::string::operator[]` at index `size()`. -/
def nulChar : Char := Char.ofNat 0

/-- The `Spinner` glyph string (member `spin_chars`): slash, dash,
backslash, pipe. -/
def spinChars : List Char := ['/', '-', '\\', '|']

/-- The `Dotter` pattern string `"... .. .. .. .... .... ."` (member `spin_chars`). -/
def dotChars : List Char :=
  ['.', '.', '.', ' ', '.', '.', ' ', '.', '.', ' ', '.', '.', ' ',
   '.', '.', '.', '.', ' ', '.', '.', '.', '.', ' ', '.']

/-- State of `FUTILS::Spinner`. -/
structure Spinner where
  last : Timespec
  freq : Int
  period : ℚ
  spinIndex : Nat
  spin_chars : List Char
deriving DecidableEq

/-- `Spinner::Spinner(int frequency)`: records the construction-time clock
sample in `last` and sets `period = 1 / (freq + 1E-6)`. -/
def Spinner.init (frequency : Int) (t0 : Timespec) : Spinner :=
  { last := t0
    freq := frequency
    period := 1 / ((frequency : ℚ) + 1 / 1000000)
    spinIndex := 0
    spin_chars := spinChars }

/-- `Spinner::operator()`: one poll. Returns the updated state and the
bytes passed to `putchar` during the call (in order). -/
def Spinner.poll (s : Spinner) (now : Timespec) : Spinner × List Char :=
  let timeElapsed := elapsedSecs s.last now
  if s.period - timeElapsed < fireTolerance then
    ({ s with spinIndex := s.spinIndex + 1, last := now },
     [' ', s.spin_chars.getD (s.spinIndex % s.spin_chars.length) nulChar, ' ', '\r'])
  else
    (s, [])

/-- A sequence of polls of a `Spinner`, one per clock sample, collecting
the per-poll byte output. -/
def Spinner.run (s : Spinner) : List Timespec → Spinner × List (List Char)
  | [] => (s, [])
  | t :: ts =>
    let p := Spinner.poll s t
    let r := Spinner.run p.1 ts
    (r.1, p.2 :: r.2)

/-- State of `FUTILS::Dotter`. -/
structure Dotter where
  last : Timespec
  freq : Int
  period : ℚ
  spinIndex : Nat
  spin_chars : List Char
deriving DecidableEq

/-- `Dotter::Dotter(int freq)`: records the construction-time clock sample
in `last` and sets `period = 1 / freq` (no epsilon). -/
def Dotter.init (freq : Int) (t0 : Timespec) : Dotter :=
  { last := t0
    freq := freq
    period := 1 / (freq : ℚ)
    spinIndex := 0
    spin_chars := dotChars }

/-- `Dotter::operator()`: one poll. Returns the updated state and the
bytes passed to `putchar` during the call (in order). -/
def Dotter.poll (d : Dotter) (now : Timespec) : Dotter × List Char :=
  let timeElapsed := elapsedSecs d.last now
  if d.period - timeElapsed < fireTolerance then
    ({ d with spinIndex := d.spinIndex + 4, last := now },
     [' ',
      d.spin_chars.getD (d.spinIndex % d.spin_chars.length) nulChar,
      d.spin_chars.getD (d.spinIndex % d.spin_chars.length + 1) nulChar,
      d.spin_chars.getD (d.spinIndex % d.spin_chars.length + 2) nulChar,
      d.spin_chars.getD (d.spinIndex % d.spin_chars.length + 3) nulChar,
      ' ', '\r'])
  else
    (d, [])

/-- A sequence of polls of a `Dotter`, one per clock sample, collecting
the per-poll byte output. -/
def Dotter.run (d : Dotter) : List Timespec → Dotter × List (List Char)
  | [] => (d, [])
  | t :: ts =>
    let p := Dotter.poll d t
    let r := Dotter.run p.1 ts
    (r.1, p.2 :: r.2)

/-- State of `FUTILS::Timer`. The scratch member `now` is always written
before being read and is modelled as an argument to each operation. -/
structure Timer where
  laps : List ℚ
  running : Bool
  start : Timespec
  lap : Timespec
  elapsedTime : ℚ
  lapTime : ℚ
deriving DecidableEq

/-- `Timer::Timer()`: sets `running = false`, `elapsedTime = 0`,
`lapTime = 0`; the `start` and `lap` timespecs are left indeterminate,
modelled as arbitrary arguments. -/
def Timer.init (s0 l0 : Timespec) : Timer :=
  { laps := []
    running := false
    start := s0
    lap := l0
    elapsedTime := 0
    lapTime := 0 }

/-- `Timer::Start()`: samples the clock into `start`, copies it into
`lap`, and sets `running = true`. -/
def Timer.Start (t : Timer) (now : Timespec) : Timer :=
  { t with start := now, lap := now, running := true }

/-- `Timer::Stop()`: sets `lapTime = 0` and `running = false`. -/
def Timer.Stop (t : Timer) : Timer :=
  { t with lapTime := 0, running := false }

/-- `Timer::Elapsed()`: if running, samples the clock, stores and returns
the seconds since `start`; otherwise returns `0.0`. -/
def Timer.Elapsed (t : Timer) (now : Timespec) : Timer × ℚ :=
  if t.running then
    ({ t with elapsedTime := elapsedSecs t.start now }, elapsedSecs t.start now)
  else
    (t, 0)

/-- `Timer::Lap()`: samples the clock, computes the seconds since `lap`,
appends it to `laps`, advances `lap` to the sample, and returns it. -/
def Timer.Lap (t : Timer) (now : Timespec) : Timer × ℚ :=
  ({ t with lapTime := elapsedSecs t.lap now
            laps := t.laps ++ [elapsedSecs t.lap now]
            lap := now },
   elapsedSecs t.lap now)

/-- `Timer::GetCurrentLapTime()`: samples the clock, computes and returns
the seconds since `lap` without appending to `laps` or advancing `lap`. -/
def Timer.GetCurrentLapTime (t : Timer) (now : Timespec) : Timer × ℚ :=
  ({ t with lapTime := elapsedSecs t.lap now }, elapsedSecs t.lap now)

/-- Claim C3: `Elapsed()` returns `now - startTime` in seconds when
`running` is true and exactly `0.0` when `running` is false — in
particular after `Stop()`, and on a freshly constructed `Timer`. -/
theorem Timer.Elapsed_spec (t : Timer) (now s0 l0 : Timespec) :
    ((Timer.Elapsed t now).2 = if t.running then elapsedSecs t.start now else 0) ∧
    (Timer.Elapsed (Timer.Stop t) now).2 = 0 ∧
    (Timer.Elapsed (Timer.init s0 l0) now).2 = 0 := by
  refine ⟨?_, ?_, ?_⟩ <;>
    by_cases h : t.running <;> simp [Timer.Elapsed, Timer.Stop, Timer.init, h]

/-- Claim C6: in every `Timer` state, `Lap()` appends `now - lastLapTime`
to `laps`, advances the lap reference point to `now`, and returns that
value, regardless of `running`. -/
theorem Timer.Lap_spec (t : Timer) (now : Timespec) :
    (Timer.Lap t now).1.laps = t.laps ++ [elapsedSecs t.lap now] ∧
    (Timer.Lap t now).1.lap = now ∧
    (Timer.Lap t now).2 = elapsedSecs t.lap now ∧
    (Timer.Lap t now).1.running = t.running := by
  refine ⟨rfl, rfl, rfl, rfl⟩

/-- Claim C7: `Stop()` sets `running` to false and leaves the recorded
laps, the start time and the lap reference point unchanged. -/
theorem Timer.Stop_spec (t : Timer) :
    (Timer.Stop t).running = false ∧
    (Timer.Stop t).laps = t.laps ∧
    (Timer.Stop t).start = t.start ∧
    (Timer.Stop t).lap = t.lap := by
  refine ⟨rfl, rfl, rfl, rfl⟩

/-- Claim C9: `GetCurrentLapTime()` returns the same value `Lap()` would
return at the same clock sample, but appends nothing to `laps` and leaves
the lap reference point unchanged. -/
theorem Timer.GetCurrentLapTime_spec (t : Timer) (now : Timespec) :
    (Timer.GetCurrentLapTime t now).2 = (Timer.Lap t now).2 ∧
    (Timer.GetCurrentLapTime t now).1.laps = t.laps ∧
    (Timer.GetCurrentLapTime t now).1.lap = t.lap := by
  refine ⟨rfl, rfl, rfl⟩

/-- Claim C10: `laps` is append-only: `Start`, `Stop`, `Elapsed` and
`GetCurrentLapTime` leave it unchanged (in particular a restart never
clears recorded laps), and `Lap` appends exactly one element. -/
theorem Timer.laps_append_only (t : Timer) (n1 n2 : Timespec) :
    (Timer.Start t n1).laps = t.laps ∧
    (Timer.Stop t).laps = t.laps ∧
    (Timer.Elapsed t n1).1.laps = t.laps ∧
    (Timer.GetCurrentLapTime t n1).1.laps = t.laps ∧
    (Timer.Lap t n1).1.laps = t.laps ++ [(Timer.Lap t n1).2] ∧
    (Timer.Lap t n1).1.laps.length = t.laps.length + 1 ∧
    (Timer.Start (Timer.Lap t n1).1 n2).laps = (Timer.Lap t n1).1.laps := by
  refine ⟨rfl, rfl, ?_, rfl, rfl, by simp [Timer.Lap], rfl⟩
  by_cases h : t.running <;> simp [Timer.Elapsed, h]

/-- Claim C5: for every construction frequency `f > 0`, the Spinner's
stored gating period is `1 / (f + 1e-6)` seconds while the Dotter's is
`1 / f` seconds; the two conversions give different periods. -/
theorem period_conversion_spec (f : Int) (t0 : Timespec) (h : 0 < f) :
    (Spinner.init f t0).period = 1 / ((f : ℚ) + 1 / 1000000) ∧
    (Dotter.init f t0).period = 1 / (f : ℚ) ∧
    (Spinner.init f t0).period ≠ (Dotter.init f t0).period := by
  have hf : (0 : ℚ) < (f : ℚ) := by exact_mod_cast h
  refine ⟨rfl, rfl, ?_⟩
  show (1 : ℚ) / ((f : ℚ) + 1 / 1000000) ≠ 1 / (f : ℚ)
  intro hEq
  have h1 : ((f : ℚ) + 1 / 1000000) ≠ 0 := by positivity
  have h2 : (f : ℚ) ≠ 0 := ne_of_gt hf
  have h3 : ((f : ℚ) + 1 / 1000000) = (f : ℚ) := by
    have h4 := congrArg (fun x => 1 / x) hEq
    simp only [one_div_one_div] at h4
    exact h4
  linarith

/-- Witness for C5 at frequency 5. -/
theorem period_conversion_spec_witness :
    (0 < (5 : Int)) ∧
    ((Spinner.init 5 ⟨0, 0⟩).period = 1 / ((5 : ℚ) + 1 / 1000000) ∧
     (Dotter.init 5 ⟨0, 0⟩).period = 1 / (5 : ℚ) ∧
     (Spinner.init 5 ⟨0, 0⟩).period ≠ (Dotter.init 5 ⟨0, 0⟩).period) :=
  ⟨by decide, period_conversion_spec 5 ⟨0, 0⟩ (by decide)⟩

/-- Claim C1: a poll of a Spinner or a Dotter emits a frame exactly when
`period - (now - lastTrigger) < 1e-3` seconds (`fireTolerance`); on every
fire the last-trigger sample is updated to `now`, otherwise it is kept. -/
theorem rate_gate_spec (s : Spinner) (d : Dotter) (now : Timespec) :
    ((Spinner.poll s now).2.length =
      if s.period - elapsedSecs s.last now < fireTolerance then 4 else 0) ∧
    ((Spinner.poll s now).1.last =
      if s.period - elapsedSecs s.last now < fireTolerance then now else s.last) ∧
    ((Dotter.poll d now).2.length =
      if d.period - elapsedSecs d.last now < fireTolerance then 7 else 0) ∧
    ((Dotter.poll d now).1.last =
      if d.period - elapsedSecs d.last now < fireTolerance then now else d.last) := by
  by_cases hs : s.period - elapsedSecs s.last now < fireTolerance <;>
    by_cases hd : d.period - elapsedSecs d.last now < fireTolerance <;>
      simp [Spinner.poll, Dotter.poll, hs, hd]

/-- Claim C8: a firing Spinner poll writes exactly the bytes space, glyph,
space, carriage-return, and a firing Dotter poll writes space, four
pattern characters, space, carriage-return; a non-firing poll emits no
bytes and leaves `spinIndex` and the last-trigger sample unchanged. -/
theorem output_bytes_spec (s : Spinner) (d : Dotter) (now : Timespec) :
    ((Spinner.poll s now).2 =
      if s.period - elapsedSecs s.last now < fireTolerance then
        [' ', s.spin_chars.getD (s.spinIndex % s.spin_chars.length) nulChar, ' ', '\r']
      else []) ∧
    ((Spinner.poll s now).1.spinIndex =
      if s.period - elapsedSecs s.last now < fireTolerance then s.spinIndex + 1
      else s.spinIndex) ∧
    ((Spinner.poll s now).1.last =
      if s.period - elapsedSecs s.last now < fireTolerance then now else s.last) ∧
    ((Dotter.poll d now).2 =
      if d.period - elapsedSecs d.last now < fireTolerance then
        [' ',
         d.spin_chars.getD (d.spinIndex % d.spin_chars.length) nulChar,
         d.spin_chars.getD (d.spinIndex % d.spin_chars.length + 1) nulChar,
         d.spin_chars.getD (d.spinIndex % d.spin_chars.length + 2) nulChar,
         d.spin_chars.getD (d.spinIndex % d.spin_chars.length + 3) nulChar,
         ' ', '\r']
      else []) ∧
    ((Dotter.poll d now).1.spinIndex =
      if d.period - elapsedSecs d.last now < fireTolerance then d.spinIndex + 4
      else d.spinIndex) ∧
    ((Dotter.poll d now).1.last =
      if d.period - elapsedSecs d.last now < fireTolerance then now else d.last) := by
  by_cases hs : s.period - elapsedSecs s.last now < fireTolerance <;>
    by_cases hd : d.period - elapsedSecs d.last now < fireTolerance <;>
      simp [Spinner.poll, Dotter.poll, hs, hd]

/-- The byte frame a Spinner emits on its `i`-th fire (counting from 0):
space, the glyph at position `i % 4` of the glyph string, space,
carriage-return. -/
def spinFrame (i : Nat) : List Char :=
  [' ', spinChars.getD (i % 4) nulChar, ' ', '\r']

lemma Spinner.run_fired (ts : List Timespec) (s : Spinner)
    (h : s.spin_chars = spinChars) :
    ((Spinner.run s ts).2.filter (fun o => !o.isEmpty)) =
      (List.range ((Spinner.run s ts).2.filter (fun o => !o.isEmpty)).length).map
        (fun k => spinFrame (s.spinIndex + k)) ∧
    (Spinner.run s ts).1.spinIndex =
      s.spinIndex + ((Spinner.run s ts).2.filter (fun o => !o.isEmpty)).length := by
  induction ts generalizing s with
  | nil => simp [Spinner.run]
  | cons t ts ih =>
    by_cases hf : s.period - elapsedSecs s.last t < fireTolerance
    · have hp : Spinner.poll s t =
          ({ s with spinIndex := s.spinIndex + 1, last := t },
           spinFrame s.spinIndex) := by
        simp [Spinner.poll, hf, spinFrame, h, spinChars]
      obtain ⟨ih1, ih2⟩ :=
        ih { s with spinIndex := s.spinIndex + 1, last := t } (by simpa using h)
      have hrun : Spinner.run s (t :: ts) =
          ((Spinner.run { s with spinIndex := s.spinIndex + 1, last := t } ts).1,
           spinFrame s.spinIndex ::
             (Spinner.run { s with spinIndex := s.spinIndex + 1, last := t } ts).2) := by
        simp [Spinner.run, hp]
      rw [hrun]
      have hfl : (spinFrame s.spinIndex ::
            (Spinner.run { s with spinIndex := s.spinIndex + 1, last := t } ts).2).filter
              (fun o => !o.isEmpty) =
          spinFrame s.spinIndex ::
            ((Spinner.run { s with spinIndex := s.spinIndex + 1, last := t } ts).2.filter
              (fun o => !o.isEmpty)) :=
        List.filter_cons_of_pos rfl
      constructor
      · rw [hfl, List.length_cons, List.range_succ_eq_map, List.map_cons, List.map_map]
        have hmap : (List.range
              ((Spinner.run { s with spinIndex := s.spinIndex + 1, last := t } ts).2.filter
                (fun o => !o.isEmpty)).length).map
              ((fun k => spinFrame (s.spinIndex + k)) ∘ Nat.succ) =
            (List.range
              ((Spinner.run { s with spinIndex := s.spinIndex + 1, last := t } ts).2.filter
                (fun o => !o.isEmpty)).length).map
              (fun k => spinFrame (s.spinIndex + 1 + k)) := by
          apply List.map_congr_left
          intro k _
          exact congrArg spinFrame (by omega)
        rw [hmap, ← ih1]
        exact List.cons_eq_cons.mpr ⟨congrArg spinFrame (by omega), rfl⟩
      · rw [hfl, List.length_cons, ih2]
        have hproj : ({ s with spinIndex := s.spinIndex + 1, last := t } : Spinner).spinIndex
            = s.spinIndex + 1 := rfl
        omega
    · have hp : Spinner.poll s t = (s, []) := by
        simp [Spinner.poll, hf]
      have ih2 := ih s h
      simp only [Spinner.run, hp] at *
      simpa using ih2

/-- Claim C4: starting from construction, the list of fired Spinner frames
over any poll trace is exactly `spinFrame 0, spinFrame 1, ...`: the `n`-th
fired frame's glyph is character `n % 4` of the fixed glyph sequence
slash, dash, backslash, pipe; `spinIndex` equals the number of fired
frames (incremented by exactly 1 per fire); and the glyph sequence is
periodic with period 4 in the number of fired frames. -/
theorem spinner_glyph_sequence (f : Int) (t0 : Timespec) (ts : List Timespec) (n : Nat) :
    ((Spinner.run (Spinner.init f t0) ts).2.filter (fun o => !o.isEmpty)) =
      (List.range
        ((Spinner.run (Spinner.init f t0) ts).2.filter (fun o => !o.isEmpty)).length).map
        spinFrame ∧
    (Spinner.run (Spinner.init f t0) ts).1.spinIndex =
      ((Spinner.run (Spinner.init f t0) ts).2.filter (fun o => !o.isEmpty)).length ∧
    spinFrame (n + 4) = spinFrame n := by
  have h := Spinner.run_fired ts (Spinner.init f t0) rfl
  have h0 : (Spinner.init f t0).spinIndex = 0 := rfl
  rw [h0] at h
  obtain ⟨h1, h2⟩ := h
  simp only [Nat.zero_add] at h1 h2
  exact ⟨h1, h2, by simp [spinFrame, Nat.add_mod_right]⟩

lemma dotChars_getD_mem : ∀ i, i < 24 → dotChars.getD i nulChar ∈ dotChars := by decide

lemma Dotter.poll_mod_invariant (d : Dotter) (t : Timespec) :
    (Dotter.poll d t).1.spin_chars = d.spin_chars ∧
    (Dotter.poll d t).1.spinIndex % 4 = d.spinIndex % 4 := by
  simp only [Dotter.poll]
  split
  · exact ⟨rfl, Nat.add_mod_right _ _⟩
  · exact ⟨rfl, rfl⟩

lemma Dotter.run_invariant (ts : List Timespec) (d : Dotter) :
    (Dotter.run d ts).1.spin_chars = d.spin_chars ∧
    (Dotter.run d ts).1.spinIndex % 4 = d.spinIndex % 4 := by
  induction ts generalizing d with
  | nil => exact ⟨rfl, rfl⟩
  | cons t ts ih =>
    have hp := Dotter.poll_mod_invariant d t
    have hr := ih (Dotter.poll d t).1
    have hrun : (Dotter.run d (t :: ts)).1 = (Dotter.run (Dotter.poll d t).1 ts).1 := rfl
    rw [hrun]
    exact ⟨hr.1.trans hp.1, hr.2.trans hp.2⟩

lemma dot_base_bound (i : Nat) (h : i % 4 = 0) : i % 24 + 3 < 24 := by omega

/-- Claim C2 (amended): the Dotter pattern string has 24 characters (not
25); the base read index is `frameIndex mod 24`; in every reachable state
`frameIndex` is a multiple of 4, so the base is at most 20 and the four
reads at `base`, `base+1`, `base+2`, `base+3` stay strictly inside the
pattern's bounds; on every fire exactly 4 pattern characters are emitted,
each drawn from the pattern. -/
theorem dotter_pattern_bounds (f : Int) (t0 : Timespec) (ts : List Timespec) (now : Timespec) :
    (Dotter.run (Dotter.init f t0) ts).1.spin_chars = dotChars ∧
    dotChars.length = 24 ∧
    (Dotter.run (Dotter.init f t0) ts).1.spinIndex % 4 = 0 ∧
    (Dotter.run (Dotter.init f t0) ts).1.spinIndex % 24 + 3 < 24 ∧
    ((Dotter.run (Dotter.init f t0) ts).1.period -
        elapsedSecs (Dotter.run (Dotter.init f t0) ts).1.last now < fireTolerance →
      (Dotter.poll (Dotter.run (Dotter.init f t0) ts).1 now).2 =
        [' ',
         dotChars.getD ((Dotter.run (Dotter.init f t0) ts).1.spinIndex % 24) nulChar,
         dotChars.getD ((Dotter.run (Dotter.init f t0) ts).1.spinIndex % 24 + 1) nulChar,
         dotChars.getD ((Dotter.run (Dotter.init f t0) ts).1.spinIndex % 24 + 2) nulChar,
         dotChars.getD ((Dotter.run (Dotter.init f t0) ts).1.spinIndex % 24 + 3) nulChar,
         ' ', '\r'] ∧
      ∀ c ∈ [dotChars.getD ((Dotter.run (Dotter.init f t0) ts).1.spinIndex % 24) nulChar,
             dotChars.getD ((Dotter.run (Dotter.init f t0) ts).1.spinIndex % 24 + 1) nulChar,
             dotChars.getD ((Dotter.run (Dotter.init f t0) ts).1.spinIndex % 24 + 2) nulChar,
             dotChars.getD ((Dotter.run (Dotter.init f t0) ts).1.spinIndex % 24 + 3) nulChar],
        c ∈ dotChars) := by
  obtain ⟨hsc, hmod⟩ := Dotter.run_invariant ts (Dotter.init f t0)
  have hsc2 : (Dotter.run (Dotter.init f t0) ts).1.spin_chars = dotChars := hsc.trans rfl
  have hm : (Dotter.run (Dotter.init f t0) ts).1.spinIndex % 4 = 0 := hmod.trans rfl
  have hb := dot_base_bound _ hm
  refine ⟨hsc2, rfl, hm, hb, ?_⟩
  intro hfire
  have hout : (Dotter.poll (Dotter.run (Dotter.init f t0) ts).1 now).2 =
      [' ',
       dotChars.getD ((Dotter.run (Dotter.init f t0) ts).1.spinIndex % 24) nulChar,
       dotChars.getD ((Dotter.run (Dotter.init f t0) ts).1.spinIndex % 24 + 1) nulChar,
       dotChars.getD ((Dotter.run (Dotter.init f t0) ts).1.spinIndex % 24 + 2) nulChar,
       dotChars.getD ((Dotter.run (Dotter.init f t0) ts).1.spinIndex % 24 + 3) nulChar,
       ' ', '\r'] := by
    have hl : dotChars.length = 24 := rfl
    simp only [Dotter.poll, hsc2, hl, if_pos hfire]
  refine ⟨hout, ?_⟩
  intro c hc
  simp only [List.mem_cons, List.not_mem_nil, or_false] at hc
  rcases hc with h1 | h1 | h1 | h1 <;>
    exact h1 ▸ dotChars_getD_mem _ (by omega)

/-- Witness for the amended C2: a Dotter constructed at time 0 with
frequency 1, polled once at t = 2 s, fires and emits the first four
pattern characters, all from the pattern. -/
theorem dotter_pattern_bounds_witness :
    ((Dotter.run (Dotter.init 1 ⟨0, 0⟩) []).1.period -
        elapsedSecs (Dotter.run (Dotter.init 1 ⟨0, 0⟩) []).1.last ⟨2, 0⟩ < fireTolerance) ∧
    ((Dotter.poll (Dotter.run (Dotter.init 1 ⟨0, 0⟩) []).1 ⟨2, 0⟩).2 =
      [' ',
       dotChars.getD ((Dotter.run (Dotter.init 1 ⟨0, 0⟩) []).1.spinIndex % 24) nulChar,
       dotChars.getD ((Dotter.run (Dotter.init 1 ⟨0, 0⟩) []).1.spinIndex % 24 + 1) nulChar,
       dotChars.getD ((Dotter.run (Dotter.init 1 ⟨0, 0⟩) []).1.spinIndex % 24 + 2) nulChar,
       dotChars.getD ((Dotter.run (Dotter.init 1 ⟨0, 0⟩) []).1.spinIndex % 24 + 3) nulChar,
       ' ', '\r'] ∧
     ∀ c ∈ [dotChars.getD ((Dotter.run (Dotter.init 1 ⟨0, 0⟩) []).1.spinIndex % 24) nulChar,
            dotChars.getD ((Dotter.run (Dotter.init 1 ⟨0, 0⟩) []).1.spinIndex % 24 + 1) nulChar,
            dotChars.getD ((Dotter.run (Dotter.init 1 ⟨0, 0⟩) []).1.spinIndex % 24 + 2) nulChar,
            dotChars.getD ((Dotter.run (Dotter.init 1 ⟨0, 0⟩) []).1.spinIndex % 24 + 3) nulChar],
       c ∈ dotChars) :=
  ⟨by norm_num [Dotter.run, Dotter.init, elapsedSecs, fireTolerance],
   (dotter_pattern_bounds 1 ⟨0, 0⟩ [] ⟨2, 0⟩).2.2.2.2
     (by norm_num [Dotter.run, Dotter.init, elapsedSecs, fireTolerance])⟩

/-- Counterexample to C2 as stated: the pattern string has 24 characters,
not 25, so the base index is `frameIndex mod 24`, not `frameIndex mod 25`.
At the reachable frame index 28 (after 7 fires of a 1 Hz Dotter polled
every 2 seconds) the poll emits the pattern character at index
`28 mod 24 = 4` (a dot), not the one at `28 mod 25 = 3` (a space). -/
theorem dotter_mod25_counterexample :
    dotChars.length = 24 ∧
    dotChars.length ≠ 25 ∧
    (Dotter.run (Dotter.init 1 ⟨0, 0⟩)
        [⟨2, 0⟩, ⟨4, 0⟩, ⟨6, 0⟩, ⟨8, 0⟩, ⟨10, 0⟩, ⟨12, 0⟩, ⟨14, 0⟩]).1.spinIndex = 28 ∧
    (Dotter.poll
        (Dotter.run (Dotter.init 1 ⟨0, 0⟩)
          [⟨2, 0⟩, ⟨4, 0⟩, ⟨6, 0⟩, ⟨8, 0⟩, ⟨10, 0⟩, ⟨12, 0⟩, ⟨14, 0⟩]).1
        ⟨16, 0⟩).2.getD 1 nulChar ≠ dotChars.getD (28 % 25) nulChar := by
  refine ⟨rfl, by decide, ?_, ?_⟩ <;>
    · norm_num [Dotter.run, Dotter.poll, Dotter.init, elapsedSecs, fireTolerance,
        dotChars, nulChar]
      try decide

end FUTILS
